import Mathlib

/-
Shallow embedding of the FestCal repository (Rhein-Main event calendar).

Conventions of the embedding:
* Python `datetime` instants are modelled as `Int` (seconds on an absolute
  time line); `timedelta` values are likewise `Int` seconds.
* Python `Optional` / nullable ORM columns are `Option`; Python string
  truthiness (`if s:`) is `s ≠ ""` on an `Option String` that is `some s`.
* Python `float` similarity scores and thresholds are modelled as exact
  rationals (`Rat`); the float literal `0.85` of the source is modelled by
  the rational `0.85 = 17/20`.
* SQLAlchemy rows live in a `List Row` in rowid (insertion) order; SQL
  three-valued logic on NULL columns is modelled explicitly at each filter
  (a comparison with a NULL column is not satisfied).
-/

namespace FestCal

/-- Model of `src/models/event.py`, class `Event`: the Python-level object
with the columns of the `events` table that carry data (the two timestamp
columns live on `Row` below, since they are managed by the store).
`latitude`/`longitude` are `Float` columns in the source, modelled as exact
rationals. -/
structure Event where
  id : String
  title : String
  description : Option String := none
  start_datetime : Option Int := none
  end_datetime : Option Int := none
  location : Option String := none
  address : Option String := none
  city : Option String := none
  postal_code : Option String := none
  latitude : Option Rat := none
  longitude : Option Rat := none
  category : Option String := none
  organizer : Option String := none
  url : Option String := none
  image_url : Option String := none
  price : Option String := none
  source : String := ""
  deriving Repr, DecidableEq

/-- A persisted row of the `events` table: the event data plus the
`created_at` / `updated_at` timestamp columns
(`src/models/event.py`, lines 34-35). -/
structure Row where
  data : Event
  created_at : Int
  updated_at : Int
  deriving Repr, DecidableEq

/-- The ids of the rows of a store, in row order. -/
def rowIds (store : List Row) : List String :=
  store.map (fun r => r.data.id)

/-- Shared per-event body of `DatabaseHandler.add_event` and
`DatabaseHandler.add_events` (`src/database/db_handler.py`, lines 44-52 and
64-73): look up the first row whose id equals `event.id`; if found,
overwrite every field of `update_fields` (all data fields except `id`) with
the incoming value and refresh `updated_at`; otherwise insert a new row
(whose timestamp columns both default to now, per the column defaults of
`src/models/event.py`).  Returns the new store and whether a row was
created. -/
def upsertRow (now : Int) (event : Event) : List Row → List Row × Bool
  | [] => ([{ data := event, created_at := now, updated_at := now }], true)
  | r :: rs =>
    if r.data.id = event.id then
      ({ data := { event with id := r.data.id },
         created_at := r.created_at, updated_at := now } :: rs, false)
    else
      let rest := upsertRow now event rs
      (r :: rest.1, rest.2)

/-- Model of `DatabaseHandler.add_event` (`src/database/db_handler.py`, lines 35-52).
The second component models the Python return value: the function is
annotated `-> None` and has no `return` statement, so it always returns
`None` (`none` here); it never reports whether the row was created. -/
def add_event (event : Event) (store : List Row) (now : Int) :
    List Row × Option Bool :=
  ((upsertRow now event store).1, none)

/-- One iteration of the loop of `DatabaseHandler.add_events`: upsert the
event into the accumulated store and bump the counter when a row was
created (`count += 1` sits on the insert branch only). -/
def upsertStep (now : Int) (acc : List Row × Nat) (event : Event) :
    List Row × Nat :=
  ((upsertRow now event acc.1).1,
   if (upsertRow now event acc.1).2 then acc.2 + 1 else acc.2)

/-- Model of `DatabaseHandler.add_events` (`src/database/db_handler.py`, lines
54-75): fold the per-event upsert over the batch, counting created rows.
Because SQLAlchemy autoflushes pending inserts before each
`session.query(...)`, an insert made earlier in the same call is visible to
the lookups of the later iterations, which the fold models. -/
def add_events (events : List Event) (store : List Row) (now : Int) :
    List Row × Nat :=
  events.foldl (upsertStep now) (store, 0)

/-- Python truthiness of an optional string argument (`if city:` etc.):
present and non-empty. -/
def truthyStr : Option String → Bool
  | none => false
  | some s => s ≠ ""

/-- Comparison `Event.start_datetime >= start_date` under SQL three-valued
logic: a NULL `start_datetime` never satisfies the bound. -/
def startGe (bound : Int) (r : Row) : Bool :=
  match r.data.start_datetime with
  | some t => bound ≤ t
  | none => false

/-- Comparison `Event.start_datetime <= end_date` under SQL three-valued
logic. -/
def startLeBound (bound : Int) (r : Row) : Bool :=
  match r.data.start_datetime with
  | some t => t ≤ bound
  | none => false

/-- Ordering used by `query.order_by(Event.start_datetime)` on SQLite:
ascending with NULLs first. -/
def startOrder (r1 r2 : Row) : Bool :=
  match r1.data.start_datetime, r2.data.start_datetime with
  | none, _ => true
  | some _, none => false
  | some a, some b => a ≤ b

/-- The ORDER BY comparison as a relation, for the stable sort below. -/
def startOrderRel (r1 r2 : Row) : Prop :=
  startOrder r1 r2 = true

instance : DecidableRel startOrderRel :=
  fun r1 r2 => instDecidableEqBool (startOrder r1 r2) true

/-- The WHERE clause of `get_events`: the four optional filters, each
applied only when its argument is truthy in Python (`if city:` etc.; a
`datetime` object is always truthy). -/
def applyFilters (city category : Option String)
    (start_date end_date : Option Int) (store : List Row) : List Row :=
  let q := store
  let q := if truthyStr city then
      q.filter (fun r => r.data.city == city) else q
  let q := if truthyStr category then
      q.filter (fun r => r.data.category == category) else q
  let q := match start_date with
    | some sd => q.filter (startGe sd)
    | none => q
  match end_date with
  | some ed => q.filter (startLeBound ed)
  | none => q

/-- Model of `DatabaseHandler.get_events` (`src/database/db_handler.py`, lines
82-104): filter, order by `start_datetime` ascending (modelled by a
stable insertion sort, matching SQLite's deterministic output on this
query), then `limit`.  The limit is applied only when truthy
(`if limit:`), i.e. nonzero; `query.limit(n)` with `n < 0` is SQLite
`LIMIT -1`, meaning no truncation. -/
def get_events (store : List Row) (city category : Option String)
    (start_date end_date : Option Int) (lim : Option Int) : List Row :=
  let q := List.insertionSort startOrderRel
    (applyFilters city category start_date end_date store)
  match lim with
  | some n => if n ≠ 0 then (if 0 < n then q.take n.toNat else q) else q
  | none => q

/-- The conjunction of the provided filters, as the (amended) claim words
it: city and category by exact match when provided and non-empty, the two
time bounds inclusive against `start_instant` when provided (a row with no
start instant satisfies no bound). -/
def specMatches (city category : Option String)
    (start_date end_date : Option Int) (r : Row) : Bool :=
  (if truthyStr city then r.data.city == city else true)
  && (if truthyStr category then r.data.category == category else true)
  && (match start_date with
      | some b => startGe b r
      | none => true)
  && (match end_date with
      | some b => startLeBound b r
      | none => true)

/-- Row predicate of the DELETE of `DatabaseHandler.delete_old_events`:
`Event.end_datetime < before_date` under SQL three-valued logic, so a row
whose `end_datetime` is NULL is never matched. -/
def endBefore (before_date : Int) (r : Row) : Bool :=
  match r.data.end_datetime with
  | some t => t < before_date
  | none => false

/-- Model of `DatabaseHandler.delete_old_events` (`src/database/db_handler.py`,
lines 132-137): delete the matched rows, return the remaining store and
the count of deleted rows. -/
def delete_old_events (store : List Row) (before_date : Int) :
    List Row × Nat :=
  (store.filter (fun r => !(endBefore before_date r)),
   (store.filter (endBefore before_date)).length)

/-! Model of `difflib.SequenceMatcher` as used by
`Deduplicator.similarity` (`src/utils/deduplicator.py`, line 25):
`SequenceMatcher(None, a, b).ratio()` with the Ratcliff/Obershelp
matching-blocks algorithm.  No junk predicate is passed, and the autojunk
heuristic of CPython only engages when the second string has at least 200
characters; the model is the exact algorithm without junk. -/

/-- Length of the longest common prefix of two character lists: the size of
the matching block that starts at a given pair of positions. -/
def cpl : List Char → List Char → Nat
  | a :: as, b :: bs => if a = b then cpl as bs + 1 else 0
  | _, _ => 0

/-- All candidate matching blocks `(i, j, size)`, enumerated with `i`
(position in the first sequence) outermost and `j` innermost, as
`find_longest_match` scans them. -/
def blockCandidates (a b : List Char) : List (Nat × Nat × Nat) :=
  (List.range a.length).flatMap
    (fun i => (List.range b.length).map
      (fun j => (i, j, cpl (a.drop i) (b.drop j))))

/-- Keep the first candidate of maximal size (`find_longest_match` updates
its best block only on a strictly larger size, so earliest `i`, then
earliest `j`, wins among blocks of maximal size). -/
def pickBest (best : Nat × Nat × Nat) : List (Nat × Nat × Nat) → Nat × Nat × Nat
  | [] => best
  | c :: cs => pickBest (if best.2.2 < c.2.2 then c else best) cs

/-- Model of `SequenceMatcher.find_longest_match` over whole sequences: the longest
matching block, ties resolved to the earliest start in `a`, then in `b`;
`(0, 0, 0)` when there is no non-empty common block. -/
def findLongestMatch (a b : List Char) : Nat × Nat × Nat :=
  pickBest (0, 0, 0) (blockCandidates a b)

/-- Total size of the matching blocks (the `sum(size for ... in
get_matching_blocks)` that `ratio` uses): recursively take the longest
matching block and recurse on the pieces to its left and to its right.
`fuel` bounds the recursion depth; any `fuel > a.length` is enough. -/
def matchTotal : Nat → List Char → List Char → Nat
  | 0, _, _ => 0
  | fuel + 1, a, b =>
    let best := findLongestMatch a b
    if best.2.2 = 0 then 0
    else
      matchTotal fuel (a.take best.1) (b.take best.2.1) + best.2.2 +
        matchTotal fuel (a.drop (best.1 + best.2.2)) (b.drop (best.2.1 + best.2.2))

/-- Model of `SequenceMatcher.ratio()`: `2*M / T` where `M` is the total size of the
matching blocks and `T` the total length; `_calculate_ratio` returns `1.0`
when both sequences are empty.  Modelled as an exact rational. -/
def ratioVal (a b : List Char) : Rat :=
  if a.length + b.length = 0 then 1
  else (2 * (matchTotal (a.length + 1) a b : Rat)) / (a.length + b.length)

/-- Configuration object of `Deduplicator.__init__`
(`src/utils/deduplicator.py`, lines 13-19): the title-similarity threshold
and the time window (a `timedelta`, stored here in seconds). -/
structure Deduplicator where
  title_threshold : Rat
  time_window : Int
  deriving Repr, DecidableEq

/-- The constructor's conversion `timedelta(minutes=time_window_minutes)`:
a `Deduplicator` built from a threshold and a window in minutes. -/
def Deduplicator.ofMinutes (threshold : Rat) (time_window_minutes : Int) :
    Deduplicator :=
  { title_threshold := threshold, time_window := time_window_minutes * 60 }

/-- The defaults of `Deduplicator.__init__`: threshold `0.85`, window 60
minutes. -/
def defaultDeduplicator : Deduplicator :=
  Deduplicator.ofMinutes (0.85 : Rat) 60

/-- Python `str.lower()` on the ASCII strings at hand: lowercase each
character. -/
def lowerStr (s : String) : String :=
  ⟨s.data.map Char.toLower⟩

/-- Model of `Deduplicator.similarity` (`src/utils/deduplicator.py`, lines 21-25):
`0.0` when either string is falsy (empty), else the `SequenceMatcher`
ratio of the lowercased strings. -/
def Deduplicator.similarity (_d : Deduplicator) (a b : String) : Rat :=
  if a = "" ∨ b = "" then 0
  else ratioVal (lowerStr a).data (lowerStr b).data

/-- The time-proximity disqualifier of `is_duplicate` (lines 38-41): both
start instants present and absolute difference strictly greater than the
window.  A missing start on either side skips the check. -/
def timeFar (window : Int) (t1 t2 : Option Int) : Bool :=
  match t1, t2 with
  | some a, some b => window < |a - b|
  | _, _ => false

/-- The city disqualifier of `is_duplicate` (lines 44-46): both cities
truthy (present, non-empty) and different after lowercasing. -/
def cityMismatch (c1 c2 : Option String) : Bool :=
  match c1, c2 with
  | some a, some b => a ≠ "" && b ≠ "" && lowerStr a ≠ lowerStr b
  | _, _ => false

/-- Model of `Deduplicator.is_duplicate` (`src/utils/deduplicator.py`, lines
27-48). -/
def Deduplicator.is_duplicate (d : Deduplicator) (event1 event2 : Event) :
    Bool :=
  if event1.id = event2.id then true
  else if d.similarity event1.title event2.title < d.title_threshold then
    false
  else if timeFar d.time_window event1.start_datetime event2.start_datetime then
    false
  else if cityMismatch event1.city event2.city then false
  else true

/-- The accumulation loop of `Deduplicator.deduplicate`, generic in the
pairwise test `p incoming accepted`: append an incoming element unless it
matches one of the already-accepted ones. -/
def dedupAux (p : α → α → Bool) (acc : List α) (xs : List α) : List α :=
  xs.foldl (fun kept e => if kept.any (fun u => p e u) then kept else kept ++ [e]) acc

/-- Model of `Deduplicator.deduplicate` (`src/utils/deduplicator.py`, lines 50-63):
keep the first occurrence, dropping any event that `is_duplicate`-matches
an already-kept one. -/
def Deduplicator.deduplicate (d : Deduplicator) (events : List Event) :
    List Event :=
  dedupAux (fun e u => d.is_duplicate e u) [] events

/-- Model of `ValidationError` (`src/utils/validators.py`, lines 8-14): a
field name and a message. -/
structure ValidationError where
  field : String
  message : String
  deriving Repr, DecidableEq

/-- Model of `urllib.parse.urlparse(s)` restricted to what the strict
checks read: whether the scheme and the netloc components are both
non-empty.  A scheme is a leading `[a-zA-Z][a-zA-Z0-9+.-]*` before a `:`;
a netloc is present when the remainder (or, absent a scheme, the whole
string) starts with `//` followed by at least one character before the
next `/`, `?` or `#`. -/
def urlHasSchemeAndNetloc (s : String) : Bool :=
  let cs := s.data
  let schemeLen :=
    match cs with
    | c :: rest =>
      if c.isAlpha then
        let body := rest.takeWhile
          (fun ch => ch.isAlphanum || ch = '+' || ch = '-' || ch = '.')
        if (rest.drop body.length).head? = some ':' then body.length + 1
        else 0
      else 0
    | [] => 0
  if schemeLen = 0 then false
  else
    let rest := cs.drop (schemeLen + 1)
    match rest with
    | c1 :: c2 :: netRest =>
      c1 = '/' && c2 = '/' &&
        !((netRest.takeWhile
            (fun ch => ch ≠ '/' && ch ≠ '?' && ch ≠ '#')).isEmpty)
    | _ => false

/-- Check of `validate_event` lines 31-32: `not event.id` (emptiness). -/
def idErrors (event : Event) : List ValidationError :=
  if event.id = "" then [⟨("id"), ("Event ID is required")⟩] else []

/-- Python `str.strip()`: drop leading and trailing whitespace. -/
def stripStr (s : String) : String :=
  ⟨((s.data.dropWhile Char.isWhitespace).reverse.dropWhile
      Char.isWhitespace).reverse⟩

/-- Check of lines 34-35: `not event.title or not event.title.strip()`
(empty before or after stripping the surrounding whitespace). -/
def titleErrors (event : Event) : List ValidationError :=
  if event.title = "" ∨ stripStr event.title = "" then
    [⟨("title"), ("Event title is required")⟩]
  else []

/-- Check of lines 37-38: `not event.start_datetime`; a `datetime` object
is always truthy, so this is absence. -/
def startErrors (event : Event) : List ValidationError :=
  if event.start_datetime = none then
    [⟨("start_datetime"), ("Start datetime is required")⟩]
  else []

/-- Check of lines 40-41: `not event.source` (emptiness; a
whitespace-only source is truthy and passes). -/
def sourceErrors (event : Event) : List ValidationError :=
  if event.source = "" then
    [⟨("source"), ("Event source is required")⟩]
  else []

/-- Check of lines 44-48: when both instants are present and the end is
strictly before the start. -/
def dateOrderErrors (event : Event) : List ValidationError :=
  match event.start_datetime, event.end_datetime with
  | some s, some e =>
    if e < s then
      [⟨("end_datetime"), ("End datetime must be after start datetime")⟩]
    else []
  | _, _ => []

/-- Strict check of lines 51-57: a truthy `url` must parse with a scheme
and a netloc. -/
def urlErrors (event : Event) (strict : Bool) : List ValidationError :=
  match event.url with
  | some u =>
    if u ≠ "" ∧ strict = true ∧ ¬ urlHasSchemeAndNetloc u then
      [⟨("url"), ("Invalid URL format")⟩]
    else []
  | none => []

/-- Strict check of lines 59-65, same shape for `image_url`. -/
def imageUrlErrors (event : Event) (strict : Bool) : List ValidationError :=
  match event.image_url with
  | some u =>
    if u ≠ "" ∧ strict = true ∧ ¬ urlHasSchemeAndNetloc u then
      [⟨("image_url"), ("Invalid image URL format")⟩]
    else []
  | none => []

/-- Strict check of lines 68-74: a truthy postal code must be exactly 5
digits. -/
def postalErrors (event : Event) (strict : Bool) : List ValidationError :=
  match event.postal_code with
  | some p =>
    if p ≠ "" ∧ strict = true ∧
        ¬ (p.data.all Char.isDigit ∧ p.length = 5) then
      [⟨("postal_code"),
        ("Invalid German postal code format (expected 5 digits)")⟩]
    else []
  | none => []

/-- Model of `validate_event` (`src/utils/validators.py`, lines 17-76): collect the
full list of violations in source order (the checks append to one `errors`
list and never return early). -/
def validate_event (event : Event) (strict : Bool) : List ValidationError :=
  idErrors event ++ titleErrors event ++ startErrors event ++
    sourceErrors event ++ dateOrderErrors event ++ urlErrors event strict ++
    imageUrlErrors event strict ++ postalErrors event strict

/-- Model of `is_valid_event` (`src/utils/validators.py`, lines 79-81). -/
def is_valid_event (event : Event) (strict : Bool) : Bool :=
  (validate_event event strict).length = 0

/-! Model of `FrankfurtScraper._parse_dates`
(`src/scrapers/frankfurt_scraper.py`, lines 141-165):
`re.findall` of the pattern `\b(\d{1,2})\.(\d{1,2})\.(\d{2})\b` over the
flattened card text, then per token: year becomes `2000 + yy`, tokens that
are not valid calendar dates are dropped (the `datetime` constructor
raises `ValueError`, caught and skipped), and dates before
`datetime(2020, 1, 1)` are dropped. -/

/-- A regex word character (`\w`) for the ASCII texts at hand. -/
def isWordChar (c : Char) : Bool :=
  c.isAlphanum || c = '_'

/-- Numeric value of a list of digit characters. -/
def digitsVal (cs : List Char) : Nat :=
  cs.foldl (fun n c => n * 10 + (c.toNat - ('0').toNat)) 0

/-- After day and month groups have matched: match `\.(\d{2})\b` and
return `(year, rest)`. -/
def matchYear : List Char → Option (Nat × List Char)
  | '.' :: d1 :: d2 :: rest =>
    if d1.isDigit && d2.isDigit &&
        (match rest with
         | [] => true
         | c :: _ => !isWordChar c) then
      some (digitsVal [d1, d2], rest)
    else none
  | _ => none

/-- After the day group has matched: match `\.(\d{1,2})` for the month
(greedy, with backtracking into the year part) and then the year. -/
def matchMonthYear : List Char → Option (Nat × Nat × List Char)
  | '.' :: m1 :: rest =>
    if m1.isDigit then
      match rest with
      | m2 :: rest2 =>
        if m2.isDigit then
          match matchYear rest2 with
          | some (y, s) => some (digitsVal [m1, m2], y, s)
          | none =>
            match matchYear (m2 :: rest2) with
            | some (y, s) => some (digitsVal [m1], y, s)
            | none => none
        else
          match matchYear rest with
          | some (y, s) => some (digitsVal [m1], y, s)
          | none => none
      | [] => none
    else none
  | _ => none

/-- Attempt the date pattern at the current position (the caller has
already established the leading `\b`): `(\d{1,2})` for the day (greedy,
with backtracking) then month and year.  Returns `(day, month, year,
rest)`. -/
def matchDMY : List Char → Option (Nat × Nat × Nat × List Char)
  | d1 :: rest =>
    if d1.isDigit then
      match rest with
      | d2 :: rest2 =>
        if d2.isDigit then
          match matchMonthYear rest2 with
          | some (m, y, s) => some (digitsVal [d1, d2], m, y, s)
          | none =>
            match matchMonthYear rest with
            | some (m, y, s) => some (digitsVal [d1], m, y, s)
            | none => none
        else
          match matchMonthYear rest with
          | some (m, y, s) => some (digitsVal [d1], m, y, s)
          | none => none
      | [] => none
    else none
  | [] => none

/-- The scan of `re.findall`: try the pattern at each position where a
word boundary can hold (previous character not a word character — the
first matched character is a digit, so the boundary reduces to that),
advancing one character on failure and past the whole match on success.
`fuel ≥ length of the text` suffices. -/
def findDateTokens : Nat → Bool → List Char → List (Nat × Nat × Nat)
  | 0, _, _ => []
  | fuel + 1, prevIsWord, s =>
    match s with
    | [] => []
    | c :: rest =>
      if prevIsWord then findDateTokens fuel (isWordChar c) rest
      else
        match matchDMY (c :: rest) with
        | some (d, m, y, s2) => (d, m, y) :: findDateTokens fuel true s2
        | none => findDateTokens fuel (isWordChar c) rest

/-- Model of `re.findall(date_pattern, text)` for the date pattern of
`_parse_dates`: every `(day, month, 2-digit-year)` token, left to right,
non-overlapping. -/
def findall_dates (text : String) : List (Nat × Nat × Nat) :=
  findDateTokens text.data.length false text.data

/-- Gregorian leap year, as `datetime` implements it. -/
def isLeap (y : Nat) : Bool :=
  y % 4 = 0 && (y % 100 ≠ 0 || y % 400 = 0)

/-- Days in a month, as `datetime` validates them. -/
def daysInMonth (y m : Nat) : Nat :=
  if m = 2 then (if isLeap y then 29 else 28)
  else if m = 4 ∨ m = 6 ∨ m = 9 ∨ m = 11 then 30
  else 31

/-- Whether `datetime(y, m, d)` succeeds (the years at hand are within
`datetime`'s 1..9999 range). -/
def validDate (y m d : Nat) : Bool :=
  1 ≤ m && m ≤ 12 && 1 ≤ d && d ≤ daysInMonth y m

/-- Lexicographic comparison of calendar dates, as `datetime` compares
them. -/
def dateLe (a b : Nat × Nat × Nat) : Bool :=
  a.1 < b.1 || (a.1 = b.1 && (a.2.1 < b.2.1 || (a.2.1 = b.2.1 && a.2.2 ≤ b.2.2)))

/-- Model of `FrankfurtScraper._parse_dates` (`src/scrapers/frankfurt_scraper.py`,
lines 141-165), with dates as `(year, month, day)` triples: for every
found token, build `datetime(2000 + yy, month, day)`; an invalid calendar
date raises `ValueError` and the token is silently skipped; dates before
`datetime(2020, 1, 1)` are skipped as clearly in the past. -/
def parse_dates (text : String) : List (Nat × Nat × Nat) :=
  (findall_dates text).filterMap
    (fun t =>
      let full_year := 2000 + t.2.2
      if validDate full_year t.2.1 t.1 then
        if dateLe (2020, 1, 1) (full_year, t.2.1, t.1) then
          some (full_year, t.2.1, t.1)
        else none
      else none)

/-- Model of `BaseScraper.generate_event_id` (`src/scrapers/base_scraper.py`, lines
55-59): join the stringified arguments with `-`, hash, keep 16 hex
characters.  The SHA-256 hex digest of the Python source is an opaque
parameter `hashHex` here: every property proved below holds for any hash
function, i.e. ignoring hash collisions. -/
def generate_event_id (hashHex : String → String) (args : List String) :
    String :=
  (hashHex (String.intercalate ("-") args)).take 16

/-- The effective end date of the claim for `purge_before`: the row's
`end_instant`, falling back to `start_instant` when the end is absent.
This is the claim's reading, used for the comparison with the code. -/
def effectiveEnd (r : Row) : Option Int :=
  match r.data.end_datetime with
  | some t => some t
  | none => r.data.start_datetime

/-- Deletion predicate as the claim words it: effective end date strictly
before the cutoff. -/
def specPurgeDeletes (cutoff : Int) (r : Row) : Bool :=
  match effectiveEnd r with
  | some t => t < cutoff
  | none => false

/-- Model of `purge_before` as the claim describes it: remove exactly the rows
whose effective end date is strictly before the cutoff, returning the
count removed. -/
def specPurge (store : List Row) (cutoff : Int) : List Row × Nat :=
  (store.filter (fun r => !(specPurgeDeletes cutoff r)),
   (store.filter (specPurgeDeletes cutoff)).length)

/-! Concrete fixtures used by the witnesses and counterexamples below. -/

/-- Event data with a start instant but no end instant. -/
def evNoEnd : Event :=
  { id := ("no-end"), title := ("T"), start_datetime := some 0,
    source := ("s") }

/-- A row with a start instant but no end instant, used against the purge
claim. -/
def rowNoEnd : Row :=
  { data := evNoEnd, created_at := 0, updated_at := 0 }

/-- Event data ending at instant 50. -/
def evEnd50 : Event :=
  { id := ("end-50"), title := ("T"), start_datetime := some 40,
    end_datetime := some 50, source := ("s") }

/-- A row that ends before the purge cutoff used below. -/
def rowEnd50 : Row :=
  { data := evEnd50, created_at := 0, updated_at := 0 }

/-- Event data ending at instant 100. -/
def evEnd100 : Event :=
  { id := ("end-100"), title := ("T"), start_datetime := some 90,
    end_datetime := some 100, source := ("s") }

/-- A row that ends exactly at the purge cutoff used below. -/
def rowEnd100 : Row :=
  { data := evEnd100, created_at := 0, updated_at := 0 }

/-- An event whose source is whitespace only, used against the validation
claim. -/
def evBlankSource : Event :=
  { id := ("x"), title := ("T"), start_datetime := some 0, source := (" ") }

/-- An event with an end instant strictly before its start instant, used
by the validation witness. -/
def evBackwards : Event :=
  { id := (""), title := ("  "), start_datetime := some 10,
    end_datetime := some 5, source := ("s") }

/-- Concrete pair for the C2 witness: two events sharing one id. -/
def evShared1 : Event :=
  { id := ("shared-id"), title := ("Museumsfest"), start_datetime := some 0,
    city := some ("Mainz"), source := ("s") }

/-- Second event of the C2 witness pair: same id, everything else
different. -/
def evShared2 : Event :=
  { id := ("shared-id"), title := ("Hafenkonzert"),
    start_datetime := some 90000, city := some ("Bingen"), source := ("t") }

/-- First event of the C4 counterexample pair. -/
def evCityA : Event :=
  { id := ("same-id"), title := ("Sommerfest"), start_datetime := some 1000,
    city := some ("Mainz"), source := ("s") }

/-- Second event of the C4 counterexample pair: the same id and title and
start instant, but a different city. -/
def evCityB : Event :=
  { evCityA with city := some ("Frankfurt") }

/-- First event of the C4 witness pair (distinct ids). -/
def evGateA : Event :=
  { id := ("id-a"), title := ("Sommerfest"), start_datetime := some 1000,
    city := some ("Mainz"), source := ("s") }

/-- Second event of the C4 witness pair. -/
def evGateB : Event :=
  { id := ("id-b"), title := ("Sommerfest"), start_datetime := some 1000,
    city := some ("Frankfurt"), source := ("s") }

/-- Event with a fresh id used by the C9 counterexample. -/
def evNew : Event :=
  { id := ("new-id"), title := ("T"), start_datetime := some 0,
    source := ("s") }

/-- Event data of the first stored row of the C9 witness. -/
def evRowA : Event :=
  { id := ("row-a"), title := ("A"), start_datetime := some 10,
    source := ("s") }

/-- Event data of the second stored row of the C9 witness. -/
def evRowB : Event :=
  { id := ("row-b"), title := ("B"), start_datetime := some 20,
    source := ("s") }

/-- A first stored row for the C9 witness. -/
def rowA : Row :=
  { data := evRowA, created_at := 5, updated_at := 5 }

/-- A second stored row for the C9 witness; its id will be upserted. -/
def rowB : Row :=
  { data := evRowB, created_at := 6, updated_at := 6 }

/-- Incoming event of the C9 witness carrying the id of `rowB` with
changed mutable fields. -/
def evUpd : Event :=
  { id := ("row-b"), title := ("B2"), start_datetime := some 30,
    city := some ("Mainz"), source := ("s2") }

/-- Incoming event of the C9 witness with a fresh id. -/
def evIns : Event :=
  { id := ("row-c"), title := ("C"), start_datetime := some 40,
    source := ("s") }

/-! Generic lemmas about the first-occurrence-wins accumulation loop. -/

theorem dedupAux_nil {α : Type*} (p : α → α → Bool) (acc : List α) :
    dedupAux p acc [] = acc := rfl

theorem dedupAux_cons {α : Type*} (p : α → α → Bool) (acc : List α)
    (x : α) (xs : List α) :
    dedupAux p acc (x :: xs) =
      dedupAux p (if acc.any (fun u => p x u) then acc else acc ++ [x]) xs :=
  rfl

theorem dedupAux_append {α : Type*} (p : α → α → Bool) (acc : List α)
    (xs ys : List α) :
    dedupAux p acc (xs ++ ys) = dedupAux p (dedupAux p acc xs) ys :=
  List.foldl_append _ _ _ _

theorem dedupAux_exists_sublist {α : Type*} (p : α → α → Bool) :
    ∀ (xs : List α) (acc : List α),
      ∃ t, dedupAux p acc xs = acc ++ t ∧ t.Sublist xs := by
  intro xs
  induction xs with
  | nil => intro acc; exact ⟨[], by simp [dedupAux_nil], List.nil_sublist _⟩
  | cons x xs ih =>
    intro acc
    rw [dedupAux_cons]
    by_cases h : acc.any (fun u => p x u) = true
    · rw [if_pos h]
      obtain ⟨t, ht, hs⟩ := ih acc
      exact ⟨t, ht, hs.cons x⟩
    · rw [if_neg h]
      obtain ⟨t, ht, hs⟩ := ih (acc ++ [x])
      exact ⟨x :: t, by simpa using ht, hs.cons₂ x⟩

theorem dedupAux_pairwise {α : Type*} (p : α → α → Bool) :
    ∀ (xs : List α) (acc : List α),
      acc.Pairwise (fun u e => p e u = false) →
      (dedupAux p acc xs).Pairwise (fun u e => p e u = false) := by
  intro xs
  induction xs with
  | nil => intro acc hacc; simpa [dedupAux_nil] using hacc
  | cons x xs ih =>
    intro acc hacc
    rw [dedupAux_cons]
    by_cases h : acc.any (fun u => p x u) = true
    · rw [if_pos h]; exact ih acc hacc
    · rw [if_neg h]
      refine ih (acc ++ [x]) ?_
      rw [List.pairwise_append]
      refine ⟨hacc, List.pairwise_singleton _ _, ?_⟩
      intro a ha b hb
      rw [List.mem_singleton] at hb
      subst hb
      have hall := List.any_eq_false.mp (Bool.eq_false_iff.mpr h)
      exact Bool.eq_false_iff.mpr (hall a ha)

theorem dedupAux_of_pairwise {α : Type*} (p : α → α → Bool) :
    ∀ (xs : List α) (acc : List α),
      (∀ e ∈ xs, ∀ u ∈ acc, p e u = false) →
      xs.Pairwise (fun u e => p e u = false) →
      dedupAux p acc xs = acc ++ xs := by
  intro xs
  induction xs with
  | nil => intro acc _ _; simp [dedupAux_nil]
  | cons x xs ih =>
    intro acc hacc hpw
    have hx : acc.any (fun u => p x u) = false :=
      List.any_eq_false.mpr
        (fun u hu => by simp [hacc x (List.mem_cons_self x xs) u hu])
    rw [dedupAux_cons, if_neg (by simp [hx])]
    rw [List.pairwise_cons] at hpw
    have := ih (acc ++ [x])
      (fun e he u hu => by
        rcases List.mem_append.mp hu with h1 | h1
        · exact hacc e (List.mem_cons_of_mem x he) u h1
        · rw [List.mem_singleton] at h1; subst h1; exact hpw.1 e he)
      hpw.2
    rw [this, List.append_assoc, List.singleton_append]

/-- Claim C5: `deduplicate` is idempotent; its result is a subsequence of
the input; the kept elements are pairwise non-duplicates in the
incoming-versus-accepted direction; and extending the input by one element
keeps the earlier accepted elements untouched, dropping the newcomer
exactly when it matches one of them (first occurrence wins). -/
theorem C5_deduplicate_idempotent (d : Deduplicator) (xs : List Event) :
    d.deduplicate (d.deduplicate xs) = d.deduplicate xs
    ∧ (d.deduplicate xs).Sublist xs
    ∧ (d.deduplicate xs).Pairwise (fun u e => d.is_duplicate e u = false)
    ∧ ∀ (l1 : List Event) (x : Event),
        d.deduplicate (l1 ++ [x]) =
          if (d.deduplicate l1).any (fun u => d.is_duplicate x u) then
            d.deduplicate l1
          else d.deduplicate l1 ++ [x] := by
  have hpw : (d.deduplicate xs).Pairwise
      (fun u e => d.is_duplicate e u = false) :=
    dedupAux_pairwise _ xs [] List.Pairwise.nil
  refine ⟨?_, ?_, hpw, ?_⟩
  · have := dedupAux_of_pairwise (fun e u => d.is_duplicate e u)
      (d.deduplicate xs) [] (fun e _ u hu => absurd hu (List.not_mem_nil u)) hpw
    simpa [Deduplicator.deduplicate] using this
  · obtain ⟨t, ht, hs⟩ :=
      dedupAux_exists_sublist (fun e u => d.is_duplicate e u) xs []
    have : d.deduplicate xs = t := by simpa [Deduplicator.deduplicate] using ht
    rw [this]; exact hs
  · intro l1 x
    unfold Deduplicator.deduplicate
    rw [dedupAux_append]
    rfl

/-! Lemmas about the Ratcliff/Obershelp ratio, needed to evaluate the
similarity of two equal titles. -/

theorem cpl_le_left : ∀ (a b : List Char), cpl a b ≤ a.length := by
  intro a
  induction a with
  | nil => intro b; cases b <;> simp [cpl]
  | cons x xs ih =>
    intro b
    cases b with
    | nil => simp [cpl]
    | cons y ys =>
      by_cases h : x = y
      · simpa [cpl, h] using ih ys
      · simp [cpl, h]

theorem cpl_le_right : ∀ (a b : List Char), cpl a b ≤ b.length := by
  intro a
  induction a with
  | nil => intro b; cases b <;> simp [cpl]
  | cons x xs ih =>
    intro b
    cases b with
    | nil => simp [cpl]
    | cons y ys =>
      by_cases h : x = y
      · simpa [cpl, h] using ih ys
      · simp [cpl, h]

theorem cpl_self : ∀ (l : List Char), cpl l l = l.length := by
  intro l
  induction l with
  | nil => rfl
  | cons x xs ih => simp [cpl, ih]

theorem pickBest_eq_or_mem :
    ∀ (cs : List (Nat × Nat × Nat)) (best : Nat × Nat × Nat),
      pickBest best cs = best ∨ pickBest best cs ∈ cs := by
  intro cs
  induction cs with
  | nil => intro best; exact Or.inl rfl
  | cons c cs ih =>
    intro best
    rw [pickBest]
    by_cases h : best.2.2 < c.2.2
    · rw [if_pos h]
      rcases ih c with h1 | h1
      · exact Or.inr (by rw [h1]; exact List.mem_cons_self c cs)
      · exact Or.inr (List.mem_cons_of_mem c h1)
    · rw [if_neg h]
      rcases ih best with h1 | h1
      · exact Or.inl h1
      · exact Or.inr (List.mem_cons_of_mem c h1)

theorem pickBest_size_ge :
    ∀ (cs : List (Nat × Nat × Nat)) (best : Nat × Nat × Nat),
      best.2.2 ≤ (pickBest best cs).2.2
      ∧ ∀ c ∈ cs, c.2.2 ≤ (pickBest best cs).2.2 := by
  intro cs
  induction cs with
  | nil =>
    intro best
    exact ⟨Nat.le_refl _, fun c hc => absurd hc (List.not_mem_nil c)⟩
  | cons c cs ih =>
    intro best
    rw [pickBest]
    by_cases h : best.2.2 < c.2.2
    · rw [if_pos h]
      refine ⟨Nat.le_trans (Nat.le_of_lt h) (ih c).1, ?_⟩
      intro x hx
      rcases List.mem_cons.mp hx with h1 | h1
      · exact h1 ▸ (ih c).1
      · exact (ih c).2 x h1
    · rw [if_neg h]
      refine ⟨(ih best).1, ?_⟩
      intro x hx
      rcases List.mem_cons.mp hx with h1 | h1
      · exact h1 ▸ Nat.le_trans (Nat.le_of_not_lt h) (ih best).1
      · exact (ih best).2 x h1

theorem blockCandidates_shape {a b : List Char} {c : Nat × Nat × Nat} :
    c ∈ blockCandidates a b →
      c.2.2 = cpl (a.drop c.1) (b.drop c.2.1) := by
  intro hc
  unfold blockCandidates at hc
  rw [List.mem_flatMap] at hc
  obtain ⟨i, _, hc⟩ := hc
  rw [List.mem_map] at hc
  obtain ⟨j, _, rfl⟩ := hc
  rfl

theorem mem_blockCandidates_self {l : List Char} (h : l ≠ []) :
    (0, 0, cpl l l) ∈ blockCandidates l l := by
  unfold blockCandidates
  rw [List.mem_flatMap]
  have hlen : 0 < l.length := List.length_pos.mpr h
  exact ⟨0, List.mem_range.mpr hlen,
    List.mem_map.mpr ⟨0, List.mem_range.mpr hlen, by simp⟩⟩

theorem findLongestMatch_self {l : List Char} (h : l ≠ []) :
    findLongestMatch l l = (0, 0, l.length) := by
  have hlen : 0 < l.length := List.length_pos.mpr h
  have hub : l.length ≤ (findLongestMatch l l).2.2 := by
    have := (pickBest_size_ge (blockCandidates l l) (0, 0, 0)).2
      (0, 0, cpl l l) (mem_blockCandidates_self h)
    simpa [findLongestMatch, cpl_self] using this
  rcases pickBest_eq_or_mem (blockCandidates l l) (0, 0, 0) with h1 | h1
  · exfalso
    have h2 : (findLongestMatch l l).2.2 = 0 := by
      unfold findLongestMatch
      rw [h1]
    omega
  · have hmem : findLongestMatch l l ∈ blockCandidates l l := by
      simpa [findLongestMatch] using h1
    have hshape := blockCandidates_shape hmem
    have hi : (findLongestMatch l l).1 = 0 := by
      have hle := cpl_le_left (l.drop (findLongestMatch l l).1)
        (l.drop (findLongestMatch l l).2.1)
      rw [← hshape, List.length_drop] at hle
      omega
    have hj : (findLongestMatch l l).2.1 = 0 := by
      have hle := cpl_le_right (l.drop (findLongestMatch l l).1)
        (l.drop (findLongestMatch l l).2.1)
      rw [← hshape, List.length_drop] at hle
      omega
    have hk : (findLongestMatch l l).2.2 = l.length := by
      rw [hshape, hi, hj]
      simp [cpl_self]
    have heta : findLongestMatch l l =
        ((findLongestMatch l l).1,
         (findLongestMatch l l).2.1, (findLongestMatch l l).2.2) := rfl
    rw [heta, hi, hj, hk]

theorem matchTotal_nil_nil : ∀ (fuel : Nat), matchTotal fuel [] [] = 0 := by
  intro fuel
  cases fuel with
  | zero => rfl
  | succ n => simp [matchTotal, findLongestMatch, blockCandidates, pickBest]

theorem matchTotal_self (l : List Char) :
    matchTotal (l.length + 1) l l = l.length := by
  by_cases h : l = []
  · subst h
    exact matchTotal_nil_nil 1
  · have hflm := findLongestMatch_self h
    have hlen : 0 < l.length := List.length_pos.mpr h
    rw [matchTotal, hflm]
    simp only []
    rw [if_neg (by omega)]
    simp [List.drop_length, matchTotal_nil_nil]

theorem ratioVal_self (l : List Char) : ratioVal l l = 1 := by
  by_cases h : l = []
  · subst h; rfl
  · have hlen : 0 < l.length := List.length_pos.mpr h
    unfold ratioVal
    rw [if_neg (by omega), matchTotal_self]
    have hpos : (0 : Rat) < l.length := by exact_mod_cast hlen
    have h2 : ((l.length : Rat) + l.length) ≠ 0 := ne_of_gt (by linarith)
    have h3 : (2 * (l.length : Rat)) = ((l.length : Rat) + l.length) := by ring
    rw [h3, div_self h2]

theorem similarity_self (d : Deduplicator) (t : String) :
    d.similarity t t = if t = "" then 0 else 1 := by
  unfold Deduplicator.similarity
  by_cases h : t = ""
  · simp [h]
  · simp [h, ratioVal_self]

theorem timeFar_true {w : Int} {t1 t2 : Option Int}
    (h : timeFar w t1 t2 = true) :
    ∃ x y, t1 = some x ∧ t2 = some y ∧ w < |x - y| := by
  cases t1 with
  | none => simp [timeFar] at h
  | some x =>
    cases t2 with
    | none => simp [timeFar] at h
    | some y =>
      refine ⟨x, y, rfl, rfl, ?_⟩
      simpa [timeFar] using h

theorem timeFar_false {w : Int} {t1 t2 : Option Int}
    (h : timeFar w t1 t2 = false) :
    ∀ x y, t1 = some x → t2 = some y → |x - y| ≤ w := by
  intro x y hx hy
  subst hx; subst hy
  simpa [timeFar] using h

theorem cityMismatch_true {c1 c2 : Option String}
    (h : cityMismatch c1 c2 = true) :
    ∃ a b, c1 = some a ∧ c2 = some b ∧ a ≠ "" ∧ b ≠ "" ∧
      lowerStr a ≠ lowerStr b := by
  cases c1 with
  | none => simp [cityMismatch] at h
  | some a =>
    cases c2 with
    | none => simp [cityMismatch] at h
    | some b =>
      simp only [cityMismatch, Bool.and_eq_true, decide_eq_true_eq] at h
      exact ⟨a, b, rfl, rfl, by simpa using h.1.1, by simpa using h.1.2,
        by simpa using h.2⟩

theorem cityMismatch_false {c1 c2 : Option String}
    (h : cityMismatch c1 c2 = false) :
    ∀ a b, c1 = some a → c2 = some b → a ≠ "" → b ≠ "" →
      lowerStr a = lowerStr b := by
  intro a b ha hb hne1 hne2
  subst ha; subst hb
  simp only [cityMismatch, Bool.and_eq_false_iff] at h
  rcases h with (h | h) | h
  · simp at h; exact absurd h hne1
  · simp at h; exact absurd h hne2
  · simpa using h

/-- Claim C2: the duplicate decision is exactly the short-circuit chain —
equal ids always match; otherwise a title similarity below the threshold
disqualifies; otherwise a start-instant gap above the window disqualifies
(skipped when either start is missing); otherwise a case-insensitive city
mismatch disqualifies (skipped when either city is missing or empty);
otherwise the pair is a duplicate.  The similarity of a pair with an empty
title is 0, and the defaults are threshold `0.85` and a 60-minute
window. -/
theorem C2_is_duplicate_chain (d : Deduplicator) (a b : Event) :
    (d.is_duplicate a b = true ↔
      (a.id = b.id ∨
        (d.title_threshold ≤ d.similarity a.title b.title
         ∧ (∀ t1 t2, a.start_datetime = some t1 → b.start_datetime = some t2 →
             |t1 - t2| ≤ d.time_window)
         ∧ (∀ c1 c2, a.city = some c1 → b.city = some c2 →
             c1 ≠ "" → c2 ≠ "" → lowerStr c1 = lowerStr c2))))
    ∧ (∀ s1 s2 : String, s1 = "" ∨ s2 = "" → d.similarity s1 s2 = 0)
    ∧ defaultDeduplicator.title_threshold = (0.85 : Rat)
    ∧ defaultDeduplicator.time_window = 60 * 60 := by
  refine ⟨?_, ?_, rfl, rfl⟩
  · unfold Deduplicator.is_duplicate
    by_cases hid : a.id = b.id
    · simp [hid]
    · rw [if_neg hid]
      by_cases hsim : d.similarity a.title b.title < d.title_threshold
      · rw [if_pos hsim]
        constructor
        · intro hfalse; exact absurd hfalse (by simp)
        · intro hR
          rcases hR with h | h
          · exact absurd h hid
          · exact absurd h.1 (not_le.mpr hsim)
      · rw [if_neg hsim]
        by_cases htime : timeFar d.time_window a.start_datetime
            b.start_datetime = true
        · rw [if_pos htime]
          constructor
          · intro hfalse; exact absurd hfalse (by simp)
          · intro hR
            rcases hR with h | h
            · exact absurd h hid
            · obtain ⟨x, y, hx, hy, hxy⟩ := timeFar_true htime
              exact absurd (h.2.1 x y hx hy) (not_le.mpr hxy)
        · rw [if_neg htime]
          by_cases hcity : cityMismatch a.city b.city = true
          · rw [if_pos hcity]
            constructor
            · intro hfalse; exact absurd hfalse (by simp)
            · intro hR
              rcases hR with h | h
              · exact absurd h hid
              · obtain ⟨x, y, hx, hy, hne1, hne2, hxy⟩ :=
                  cityMismatch_true hcity
                exact absurd (h.2.2 x y hx hy hne1 hne2) hxy
          · rw [if_neg hcity]
            refine iff_of_true rfl (Or.inr ⟨not_lt.mp hsim, ?_, ?_⟩)
            · exact timeFar_false (Bool.eq_false_iff.mpr htime)
            · exact cityMismatch_false (Bool.eq_false_iff.mpr hcity)
  · intro s1 s2 h
    unfold Deduplicator.similarity
    rw [if_pos h]

/-- Witness for C2 at a concrete pair: the equal-id branch fires, and an
empty first title forces similarity 0. -/
theorem C2_is_duplicate_chain_witness :
    defaultDeduplicator.is_duplicate evShared1 evShared2 = true
    ∧ defaultDeduplicator.similarity ("") ("Museumsfest") = 0 := by
  refine ⟨?_, ?_⟩
  · exact (C2_is_duplicate_chain defaultDeduplicator evShared1 evShared2).1.mpr
      (Or.inl rfl)
  · exact (C2_is_duplicate_chain defaultDeduplicator evShared1 evShared2).2.1
      ("") ("Museumsfest") (Or.inl rfl)

/-- Counterexample to claim C4 as stated: two events with identical titles
and start instants and case-insensitively different cities for which
`is_duplicate` returns `true`, because the id check short-circuits the
chain before the city gate is reached. -/
theorem C4_counterexample :
    evCityA.title = evCityB.title
    ∧ evCityA.start_datetime = evCityB.start_datetime
    ∧ evCityA.city = some ("Mainz") ∧ evCityB.city = some ("Frankfurt")
    ∧ lowerStr ("Mainz") ≠ lowerStr ("Frankfurt")
    ∧ defaultDeduplicator.is_duplicate evCityA evCityB = true := by
  refine ⟨rfl, rfl, rfl, rfl, by decide, ?_⟩
  simp [Deduplicator.is_duplicate, evCityA, evCityB]

/-- Claim C4 as amended: for events with distinct ids, identical titles and
identical start instants, a pair of non-empty, case-insensitively
different cities is never a duplicate, regardless of how high the title
similarity is (for identical titles it is maximal). -/
theorem C4_city_gate (e1 e2 : Event) (hid : e1.id ≠ e2.id)
    (ht : e1.title = e2.title)
    (hs : e1.start_datetime = e2.start_datetime)
    (c1 c2 : String) (hc1 : e1.city = some c1) (hc2 : e2.city = some c2)
    (hne1 : c1 ≠ "") (hne2 : c2 ≠ "") (hnc : lowerStr c1 ≠ lowerStr c2) :
    defaultDeduplicator.is_duplicate e1 e2 = false := by
  unfold Deduplicator.is_duplicate
  rw [if_neg hid]
  rw [ht, similarity_self]
  by_cases hemp : e2.title = ""
  · rw [if_pos hemp, if_pos (by norm_num [defaultDeduplicator, Deduplicator.ofMinutes])]
  · rw [if_neg hemp, if_neg (by norm_num [defaultDeduplicator, Deduplicator.ofMinutes])]
    have htf : timeFar defaultDeduplicator.time_window e1.start_datetime
        e2.start_datetime = false := by
      rw [hs]
      cases e2.start_datetime with
      | none => rfl
      | some t => simp [timeFar, defaultDeduplicator, Deduplicator.ofMinutes]
    rw [htf]
    simp only [Bool.false_eq_true, if_false]
    have hcm : cityMismatch e1.city e2.city = true := by
      rw [hc1, hc2]
      simp [cityMismatch, hne1, hne2, hnc]
    rw [if_pos hcm]

/-- Witness for the amended C4 at a concrete pair. -/
theorem C4_city_gate_witness :
    defaultDeduplicator.is_duplicate evGateA evGateB = false :=
  C4_city_gate evGateA evGateB (by decide) rfl rfl
    ("Mainz") ("Frankfurt") rfl rfl (by decide) (by decide) (by decide)

/-! Lemmas about the upsert loop of the store. -/

theorem rowIds_cons (r : Row) (rs : List Row) :
    rowIds (r :: rs) = r.data.id :: rowIds rs := rfl

theorem mem_rowIds_cons {i : String} {r : Row} {rs : List Row} :
    i ∈ rowIds (r :: rs) ↔ i = r.data.id ∨ i ∈ rowIds rs := by
  rw [rowIds_cons]
  exact List.mem_cons

theorem upsertRow_cons_pos (now : Int) (e : Event) (r : Row) (rs : List Row)
    (h : r.data.id = e.id) :
    upsertRow now e (r :: rs) =
      ({ data := { e with id := r.data.id },
         created_at := r.created_at, updated_at := now } :: rs, false) := by
  rw [upsertRow, if_pos h]

theorem upsertRow_cons_neg (now : Int) (e : Event) (r : Row) (rs : List Row)
    (h : ¬ r.data.id = e.id) :
    upsertRow now e (r :: rs) =
      (r :: (upsertRow now e rs).1, (upsertRow now e rs).2) := by
  rw [upsertRow, if_neg h]

theorem upsertRow_ids (now : Int) (e : Event) :
    ∀ store : List Row,
      rowIds (upsertRow now e store).1 =
        if e.id ∈ rowIds store then rowIds store
        else rowIds store ++ [e.id] := by
  intro store
  induction store with
  | nil => simp [upsertRow, rowIds]
  | cons r rs ih =>
    by_cases h : r.data.id = e.id
    · rw [upsertRow_cons_pos now e r rs h]
      rw [if_pos (mem_rowIds_cons.mpr (Or.inl h.symm))]
      rw [rowIds_cons, rowIds_cons]
    · rw [upsertRow_cons_neg now e r rs h]
      have hne : e.id ≠ r.data.id := fun hc => h hc.symm
      by_cases hmem : e.id ∈ rowIds rs
      · rw [if_pos (mem_rowIds_cons.mpr (Or.inr hmem))]
        show rowIds (r :: (upsertRow now e rs).1) = _
        rw [rowIds_cons, rowIds_cons, ih, if_pos hmem]
      · rw [if_neg (fun hc => by
          rcases mem_rowIds_cons.mp hc with h1 | h1
          · exact hne h1
          · exact hmem h1)]
        show rowIds (r :: (upsertRow now e rs).1) = _
        rw [rowIds_cons, rowIds_cons, ih, if_neg hmem]
        rfl

theorem upsertRow_created (now : Int) (e : Event) :
    ∀ store : List Row,
      (upsertRow now e store).2 = true ↔ e.id ∉ rowIds store := by
  intro store
  induction store with
  | nil => simp [upsertRow, rowIds]
  | cons r rs ih =>
    by_cases h : r.data.id = e.id
    · rw [upsertRow_cons_pos now e r rs h]
      simp only [Bool.false_eq_true, false_iff, not_not]
      exact mem_rowIds_cons.mpr (Or.inl h.symm)
    · rw [upsertRow_cons_neg now e r rs h]
      have hne : e.id ≠ r.data.id := fun hc => h hc.symm
      rw [show (r :: (upsertRow now e rs).1,
          (upsertRow now e rs).2).2 = (upsertRow now e rs).2 from rfl]
      rw [ih]
      constructor
      · intro hn hc
        rcases mem_rowIds_cons.mp hc with h1 | h1
        · exact hne h1
        · exact hn h1
      · intro hn hc
        exact hn (mem_rowIds_cons.mpr (Or.inr hc))

theorem upsertRow_length (now : Int) (e : Event) :
    ∀ store : List Row,
      (upsertRow now e store).1.length =
        store.length + (if e.id ∈ rowIds store then 0 else 1) := by
  intro store
  induction store with
  | nil => simp [upsertRow, rowIds]
  | cons r rs ih =>
    by_cases h : r.data.id = e.id
    · rw [upsertRow_cons_pos now e r rs h]
      rw [if_pos (mem_rowIds_cons.mpr (Or.inl h.symm))]
      simp
    · rw [upsertRow_cons_neg now e r rs h]
      have hne : e.id ≠ r.data.id := fun hc => h hc.symm
      show (r :: (upsertRow now e rs).1).length = _
      rw [List.length_cons, ih]
      by_cases hmem : e.id ∈ rowIds rs
      · rw [if_pos hmem, if_pos (mem_rowIds_cons.mpr (Or.inr hmem))]
        simp
      · rw [if_neg hmem, if_neg (fun hc => by
          rcases mem_rowIds_cons.mp hc with h1 | h1
          · exact hne h1
          · exact hmem h1)]
        simp only [List.length_cons]

theorem upsertRow_mem_ids (now : Int) (e : Event) (store : List Row)
    (i : String) :
    i ∈ rowIds (upsertRow now e store).1 ↔
      i ∈ rowIds store ∨ i = e.id := by
  rw [upsertRow_ids]
  by_cases h : e.id ∈ rowIds store
  · rw [if_pos h]
    constructor
    · exact Or.inl
    · rintro (h1 | rfl)
      · exact h1
      · exact h
  · rw [if_neg h]
    simp

theorem upsertRow_ids_toFinset (now : Int) (e : Event) (store : List Row) :
    (rowIds (upsertRow now e store).1).toFinset =
      insert e.id (rowIds store).toFinset := by
  apply Finset.ext
  intro i
  simp [List.mem_toFinset, upsertRow_mem_ids, or_comm]

theorem add_events_shift (now : Int) :
    ∀ (es : List Event) (s : List Row) (n : Nat),
      List.foldl (upsertStep now) (s, n) es =
        ((add_events es s now).1, n + (add_events es s now).2) := by
  intro es
  induction es with
  | nil => intro s n; simp [add_events]
  | cons e es ih =>
    intro s n
    rw [List.foldl_cons]
    show List.foldl (upsertStep now) (upsertStep now (s, n) e) es = _
    rw [show upsertStep now (s, n) e =
        ((upsertRow now e s).1,
         if (upsertRow now e s).2 then n + 1 else n) from rfl]
    rw [ih]
    have hR : add_events (e :: es) s now =
        ((add_events es (upsertRow now e s).1 now).1,
         (if (upsertRow now e s).2 then 1 else 0) +
           (add_events es (upsertRow now e s).1 now).2) := by
      show List.foldl (upsertStep now) (upsertStep now (s, 0) e) es = _
      rw [show upsertStep now (s, 0) e =
          ((upsertRow now e s).1,
           if (upsertRow now e s).2 then 1 else 0) from rfl]
      rw [ih]
    rw [hR]
    cases hc : (upsertRow now e s).2
    · simp [hc]
    · simp [hc]
      omega

theorem add_events_cons (now : Int) (e : Event) (es : List Event)
    (store : List Row) :
    add_events (e :: es) store now =
      ((add_events es (upsertRow now e store).1 now).1,
       (if (upsertRow now e store).2 then 1 else 0) +
         (add_events es (upsertRow now e store).1 now).2) := by
  show List.foldl (upsertStep now) (upsertStep now (store, 0) e) es = _
  rw [show upsertStep now (store, 0) e =
      ((upsertRow now e store).1,
       if (upsertRow now e store).2 then 1 else 0) from rfl]
  rw [add_events_shift]

theorem add_events_mem_ids (now : Int) :
    ∀ (es : List Event) (store : List Row) (i : String),
      i ∈ rowIds (add_events es store now).1 ↔
        i ∈ rowIds store ∨ i ∈ es.map Event.id := by
  intro es
  induction es with
  | nil => intro store i; simp [add_events]
  | cons e es ih =>
    intro store i
    rw [add_events_cons]
    simp only []
    rw [ih, upsertRow_mem_ids]
    simp only [List.map_cons, List.mem_cons]
    tauto

theorem add_events_length (now : Int) :
    ∀ (es : List Event) (store : List Row),
      (add_events es store now).1.length =
        store.length + (add_events es store now).2 := by
  intro es
  induction es with
  | nil => intro store; simp [add_events]
  | cons e es ih =>
    intro store
    rw [add_events_cons]
    simp only []
    rw [ih, upsertRow_length]
    by_cases h : e.id ∈ rowIds store
    · have hc : (upsertRow now e store).2 = false := by
        rcases hb : (upsertRow now e store).2 with _ | _
        · rfl
        · exact absurd ((upsertRow_created now e store).mp hb) (not_not.mpr h)
      rw [if_pos h, hc]
      simp
    · have hc : (upsertRow now e store).2 = true :=
        (upsertRow_created now e store).mpr h
      rw [if_neg h, hc]
      simp only [if_true]
      omega

theorem add_events_count (now : Int) :
    ∀ (es : List Event) (store : List Row),
      (add_events es store now).2 =
        ((es.map Event.id).toFinset \ (rowIds store).toFinset).card := by
  intro es
  induction es with
  | nil => intro store; simp [add_events]
  | cons e es ih =>
    intro store
    rw [add_events_cons]
    simp only []
    rw [ih, upsertRow_ids_toFinset]
    simp only [List.map_cons, List.toFinset_cons]
    by_cases h : e.id ∈ (rowIds store).toFinset
    · have hc : (upsertRow now e store).2 = false := by
        rcases hb : (upsertRow now e store).2 with _ | _
        · rfl
        · exact absurd ((upsertRow_created now e store).mp hb)
            (not_not.mpr (List.mem_toFinset.mp h))
      rw [hc]
      simp only [Bool.false_eq_true, if_false, zero_add]
      rw [Finset.sdiff_insert,
        Finset.erase_eq_of_not_mem (by simp [Finset.mem_sdiff, h]),
        Finset.insert_sdiff_of_mem _ h]
    · have hc : (upsertRow now e store).2 = true :=
        (upsertRow_created now e store).mpr (fun hm => h (List.mem_toFinset.mpr hm))
      rw [hc]
      simp only [if_true]
      rw [Finset.sdiff_insert]
      have hins : insert e.id (es.map Event.id).toFinset \
          (rowIds store).toFinset =
          insert e.id ((es.map Event.id).toFinset \ (rowIds store).toFinset) := by
        apply Finset.ext
        intro i
        simp only [Finset.mem_sdiff, Finset.mem_insert]
        constructor
        · rintro ⟨h1 | h1, h2⟩
          · exact Or.inl h1
          · exact Or.inr ⟨h1, h2⟩
        · rintro (rfl | ⟨h1, h2⟩)
          · exact ⟨Or.inl rfl, h⟩
          · exact ⟨Or.inr h1, h2⟩
      rw [hins]
      have hins2 : insert e.id
          ((es.map Event.id).toFinset \ (rowIds store).toFinset) =
          insert e.id
            (((es.map Event.id).toFinset \ (rowIds store).toFinset).erase e.id) := by
        apply Finset.ext
        intro i
        simp only [Finset.mem_insert, Finset.mem_erase]
        constructor
        · rintro (rfl | h1)
          · exact Or.inl rfl
          · by_cases hi : i = e.id
            · exact Or.inl hi
            · exact Or.inr ⟨hi, h1⟩
        · rintro (rfl | ⟨_, h1⟩)
          · exact Or.inl rfl
          · exact Or.inr h1
      rw [hins2, Finset.card_insert_of_not_mem (Finset.not_mem_erase _ _)]
      omega

/-- Claim C1: running `add_events` twice with the same batch creates zero
rows on the second call and leaves the row count unchanged; each call
returns the number of (distinct) batch ids not yet present in the store;
starting from an empty store, the final row count is the number of
distinct ids in the batch. -/
theorem C1_add_events_idempotent (events : List Event) (store : List Row)
    (now1 now2 : Int) :
    (add_events events (add_events events store now1).1 now2).2 = 0
    ∧ (add_events events (add_events events store now1).1 now2).1.length
        = (add_events events store now1).1.length
    ∧ (add_events events store now1).2
        = ((events.map Event.id).toFinset \ (rowIds store).toFinset).card
    ∧ (add_events events ([] : List Row) now1).1.length
        = (events.map Event.id).toFinset.card := by
  have h0 : (add_events events (add_events events store now1).1 now2).2 = 0 := by
    rw [add_events_count]
    have hsub : (events.map Event.id).toFinset ⊆
        (rowIds (add_events events store now1).1).toFinset := by
      intro i hi
      rw [List.mem_toFinset] at hi ⊢
      exact (add_events_mem_ids now1 events store i).mpr (Or.inr hi)
    rw [Finset.sdiff_eq_empty_iff_subset.mpr hsub, Finset.card_empty]
  refine ⟨h0, ?_, add_events_count now1 events store, ?_⟩
  · rw [add_events_length, h0]
    omega
  · rw [add_events_length, add_events_count]
    simp [rowIds]


theorem upsertRow_insert (now : Int) (e : Event) :
    ∀ store : List Row, e.id ∉ rowIds store →
      (upsertRow now e store).1 =
        store ++ [{ data := e, created_at := now, updated_at := now }] := by
  intro store
  induction store with
  | nil => intro _; rfl
  | cons r rs ih =>
    intro h
    have hne : r.data.id ≠ e.id := by
      intro hc
      exact h (by rw [← hc]; exact List.mem_map.mpr ⟨r, List.mem_cons_self r rs, rfl⟩)
    rw [upsertRow, if_neg hne]
    have hrs : e.id ∉ rowIds rs := fun hc => h (by simp [rowIds] at hc ⊢; exact Or.inr hc)
    simp only []
    rw [ih hrs]
    rfl

theorem upsertRow_update (now : Int) (e : Event) :
    ∀ (l1 : List Row) (r : Row) (l2 : List Row),
      r.data.id = e.id → e.id ∉ rowIds l1 →
      (upsertRow now e (l1 ++ r :: l2)).1 =
        l1 ++ { data := { e with id := r.data.id },
                created_at := r.created_at, updated_at := now } :: l2 := by
  intro l1
  induction l1 with
  | nil =>
    intro r l2 hmatch _
    rw [List.nil_append, upsertRow, if_pos hmatch, List.nil_append]
  | cons a l1 ih =>
    intro r l2 hmatch hnot
    have hne : a.data.id ≠ e.id := by
      intro hc
      exact hnot (by rw [← hc]; exact List.mem_map.mpr ⟨a, List.mem_cons_self a l1, rfl⟩)
    have hl1 : e.id ∉ rowIds l1 := fun hc =>
      hnot (by simp [rowIds] at hc ⊢; exact Or.inr hc)
    rw [List.cons_append, upsertRow, if_neg hne]
    simp only []
    rw [ih r l2 hmatch hl1, List.cons_append]

/-- Counterexample to the return-value clause of claim C9 as stated:
`add_event` is annotated `-> None` and falls off the end of its body, so
at a fresh id it returns `None` rather than reporting that the row was
newly created. -/
theorem C9_counterexample :
    (add_event evNew [] 0).2 = none
    ∧ (add_event evNew [] 0).2 ≠ some true := by
  exact ⟨rfl, by decide⟩

/-- Claim C9 as amended: on an existing id, `add_event` overwrites every
mutable field of the first matching row with the incoming value and
refreshes `updated_at`, leaving `id`, `created_at` and all other rows
untouched; on a fresh id it appends a new row with both timestamps set to
now; and it returns `None` (the created/updated distinction is only
reported by the batch variant `add_events`, as a count). -/
theorem C9_add_event_upsert (e : Event) (store : List Row) (now : Int) :
    (add_event e store now).2 = none
    ∧ (e.id ∉ rowIds store →
        (add_event e store now).1 =
          store ++ [{ data := e, created_at := now, updated_at := now }])
    ∧ ∀ (l1 : List Row) (r : Row) (l2 : List Row),
        store = l1 ++ r :: l2 → r.data.id = e.id → e.id ∉ rowIds l1 →
        (add_event e store now).1 =
          l1 ++ { data := { e with id := r.data.id },
                  created_at := r.created_at, updated_at := now } :: l2 := by
  refine ⟨rfl, ?_, ?_⟩
  · intro h
    show (upsertRow now e store).1 = _
    exact upsertRow_insert now e store h
  · intro l1 r l2 hstore hmatch hnot
    show (upsertRow now e store).1 = _
    rw [hstore]
    exact upsertRow_update now e l1 r l2 hmatch hnot

/-- Witness for the amended C9 at concrete inputs: one update, one
insert. -/
theorem C9_add_event_upsert_witness :
    (add_event evUpd [rowA, rowB] 7).1 =
      [rowA] ++ { data := { evUpd with id := rowB.data.id },
                  created_at := rowB.created_at, updated_at := 7 } :: []
    ∧ (add_event evIns [rowA, rowB] 7).1 =
        [rowA, rowB] ++ [{ data := evIns, created_at := 7, updated_at := 7 }]
    ∧ (add_event evUpd [rowA, rowB] 7).2 = none := by
  refine ⟨?_, ?_, (C9_add_event_upsert evUpd [rowA, rowB] 7).1⟩
  · exact (C9_add_event_upsert evUpd [rowA, rowB] 7).2.2 [rowA] rowB []
      rfl (by rfl) (by simp [rowIds, rowA, evRowA, evUpd])
  · exact (C9_add_event_upsert evIns [rowA, rowB] 7).2.1
      (by simp [rowIds, rowA, rowB, evRowA, evRowB, evIns])

/-! Purge (`delete_old_events`) lemmas, claim C3. -/

theorem length_filter_add_length_not {α : Type*} (p : α → Bool) :
    ∀ l : List α,
      (l.filter p).length + (l.filter (fun a => !(p a))).length = l.length := by
  intro l
  induction l with
  | nil => rfl
  | cons x xs ih =>
    cases h : p x <;> simp [List.filter_cons, h] <;> omega

theorem endBefore_false_iff {d : Int} {r : Row} :
    endBefore d r = false ↔
      ∀ t, r.data.end_datetime = some t → ¬ t < d := by
  rcases he : r.data.end_datetime with _ | t
  · simp [endBefore, he]
  · simp [endBefore, he]

/-- Counterexample to claim C3 as stated: a row with a start instant, no
end instant, and an effective end date (per the claim's fallback) strictly
before the cutoff is nevertheless retained by `delete_old_events`, because
the SQL predicate compares only `end_datetime` and a NULL comparison never
matches; the claim's fallback reading would delete it. -/
theorem C3_counterexample :
    rowNoEnd.data.end_datetime = none
    ∧ rowNoEnd.data.start_datetime = some 0
    ∧ ((0 : Int) < 100)
    ∧ delete_old_events [rowNoEnd] 100 = ([rowNoEnd], 0)
    ∧ specPurge [rowNoEnd] 100 = ([], 1)
    ∧ (delete_old_events [rowNoEnd] 100).1 ≠ (specPurge [rowNoEnd] 100).1 := by
  refine ⟨rfl, rfl, by decide, by decide, by decide, by decide⟩

/-- Claim C3 as amended: `delete_old_events` deletes exactly the rows
whose `end_instant` is present and strictly before the cutoff (there is no
fallback to `start_instant`: rows without an end instant are never
deleted); it returns the number of rows deleted; rows whose end instant
equals the cutoff are untouched; and the surviving rows keep their
order. -/
theorem C3_delete_old_events (store : List Row) (d : Int) :
    (∀ r, r ∈ (delete_old_events store d).1 ↔
        r ∈ store ∧ ∀ t, r.data.end_datetime = some t → ¬ t < d)
    ∧ (delete_old_events store d).2 + (delete_old_events store d).1.length
        = store.length
    ∧ (∀ r ∈ store, r.data.end_datetime = some d →
        r ∈ (delete_old_events store d).1)
    ∧ (delete_old_events store d).1.Sublist store := by
  refine ⟨?_, ?_, ?_, ?_⟩
  · intro r
    show r ∈ store.filter (fun r => !(endBefore d r)) ↔ _
    rw [List.mem_filter]
    constructor
    · intro ⟨h1, h2⟩
      exact ⟨h1, endBefore_false_iff.mp (by simpa using h2)⟩
    · intro ⟨h1, h2⟩
      exact ⟨h1, by simpa using endBefore_false_iff.mpr h2⟩
  · exact length_filter_add_length_not (endBefore d) store
  · intro r hr he
    show r ∈ store.filter (fun r => !(endBefore d r))
    rw [List.mem_filter]
    have hfalse : endBefore d r = false := by
      rw [endBefore_false_iff]
      intro t ht
      rw [he, Option.some.injEq] at ht
      subst ht
      exact lt_irrefl d
    exact ⟨hr, by simp [hfalse]⟩
  · exact List.filter_sublist store

/-- Witness for the amended C3 on a concrete store with the cutoff 100:
the row ending at 50 is deleted, the row ending exactly at 100 and the row
without an end instant survive, and the count is 1. -/
theorem C3_delete_old_events_witness :
    rowEnd100 ∈ (delete_old_events [rowEnd50, rowEnd100, rowNoEnd] 100).1
    ∧ (delete_old_events [rowEnd50, rowEnd100, rowNoEnd] 100).2
        + (delete_old_events [rowEnd50, rowEnd100, rowNoEnd] 100).1.length
        = 3
    ∧ ¬ (rowEnd50 ∈ (delete_old_events [rowEnd50, rowEnd100, rowNoEnd] 100).1) := by
  refine ⟨?_, ?_, ?_⟩
  · exact (C3_delete_old_events [rowEnd50, rowEnd100, rowNoEnd] 100).2.2.1
      rowEnd100 (by decide) rfl
  · exact (C3_delete_old_events [rowEnd50, rowEnd100, rowNoEnd] 100).2.1
  · intro hmem
    have h := ((C3_delete_old_events [rowEnd50, rowEnd100, rowNoEnd] 100).1
      rowEnd50).mp hmem
    exact h.2 50 rfl (by decide)

/-! Validation lemmas, claim C6. -/

theorem mem_ite_nil {α : Type*} {c : Prop} [Decidable c] (x : α)
    (l : List α) : (x ∈ if c then l else []) ↔ c ∧ x ∈ l := by
  by_cases h : c
  · simp [h]
  · simp [h]

theorem fields_idErrors (e : Event) (f : String) :
    f ∈ (idErrors e).map ValidationError.field ↔
      f = ("id") ∧ e.id = "" := by
  by_cases h : e.id = "" <;> simp [idErrors, h, and_comm]

theorem fields_titleErrors (e : Event) (f : String) :
    f ∈ (titleErrors e).map ValidationError.field ↔
      f = ("title") ∧ (e.title = "" ∨ stripStr e.title = "") := by
  by_cases h : e.title = "" ∨ stripStr e.title = "" <;>
    simp [titleErrors, h, and_comm]

theorem fields_startErrors (e : Event) (f : String) :
    f ∈ (startErrors e).map ValidationError.field ↔
      f = ("start_datetime") ∧ e.start_datetime = none := by
  by_cases h : e.start_datetime = none <;> simp [startErrors, h, and_comm]

theorem fields_sourceErrors (e : Event) (f : String) :
    f ∈ (sourceErrors e).map ValidationError.field ↔
      f = ("source") ∧ e.source = "" := by
  by_cases h : e.source = "" <;> simp [sourceErrors, h, and_comm]

theorem fields_dateOrderErrors (e : Event) (f : String) :
    f ∈ (dateOrderErrors e).map ValidationError.field ↔
      f = ("end_datetime") ∧ ∃ s t, e.start_datetime = some s ∧
        e.end_datetime = some t ∧ t < s := by
  rcases hs : e.start_datetime with _ | s
  · simp [dateOrderErrors, hs]
  · rcases he : e.end_datetime with _ | t
    · simp [dateOrderErrors, hs, he]
    · by_cases hlt : t < s <;> simp [dateOrderErrors, hs, he, hlt, and_comm]

theorem fields_urlErrors (e : Event) (strict : Bool) (f : String) :
    f ∈ (urlErrors e strict).map ValidationError.field ↔
      f = ("url") ∧ ∃ u, e.url = some u ∧ u ≠ "" ∧ strict = true ∧
        ¬ urlHasSchemeAndNetloc u := by
  rcases hu : e.url with _ | u
  · simp [urlErrors, hu]
  · have heq : urlErrors e strict =
        if u ≠ "" ∧ strict = true ∧ ¬ urlHasSchemeAndNetloc u then
          [⟨("url"), ("Invalid URL format")⟩] else [] := by
      simp [urlErrors, hu]
    rw [heq]
    by_cases hc : u ≠ "" ∧ strict = true ∧ ¬ urlHasSchemeAndNetloc u
    · rw [if_pos hc]
      constructor
      · intro hf
        exact ⟨by simpa using hf, u, rfl, hc⟩
      · rintro ⟨hf, _⟩
        simp [hf]
    · rw [if_neg hc]
      constructor
      · intro h
        simp at h
      · rintro ⟨hf, u2, hu2, hP⟩
        rw [Option.some.injEq] at hu2
        subst hu2
        exact absurd hP hc

theorem fields_imageUrlErrors (e : Event) (strict : Bool) (f : String) :
    f ∈ (imageUrlErrors e strict).map ValidationError.field ↔
      f = ("image_url") ∧ ∃ u, e.image_url = some u ∧ u ≠ "" ∧
        strict = true ∧ ¬ urlHasSchemeAndNetloc u := by
  rcases hu : e.image_url with _ | u
  · simp [imageUrlErrors, hu]
  · have heq : imageUrlErrors e strict =
        if u ≠ "" ∧ strict = true ∧ ¬ urlHasSchemeAndNetloc u then
          [⟨("image_url"), ("Invalid image URL format")⟩] else [] := by
      simp [imageUrlErrors, hu]
    rw [heq]
    by_cases hc : u ≠ "" ∧ strict = true ∧ ¬ urlHasSchemeAndNetloc u
    · rw [if_pos hc]
      constructor
      · intro hf
        exact ⟨by simpa using hf, u, rfl, hc⟩
      · rintro ⟨hf, _⟩
        simp [hf]
    · rw [if_neg hc]
      constructor
      · intro h
        simp at h
      · rintro ⟨hf, u2, hu2, hP⟩
        rw [Option.some.injEq] at hu2
        subst hu2
        exact absurd hP hc

theorem fields_postalErrors (e : Event) (strict : Bool) (f : String) :
    f ∈ (postalErrors e strict).map ValidationError.field ↔
      f = ("postal_code") ∧ ∃ p, e.postal_code = some p ∧ p ≠ "" ∧
        strict = true ∧ ¬ (p.data.all Char.isDigit ∧ p.length = 5) := by
  rcases hp : e.postal_code with _ | p
  · simp [postalErrors, hp]
  · have heq : postalErrors e strict =
        if p ≠ "" ∧ strict = true ∧
            ¬ (p.data.all Char.isDigit ∧ p.length = 5) then
          [⟨("postal_code"),
            ("Invalid German postal code format (expected 5 digits)")⟩]
        else [] := by
      simp [postalErrors, hp]
    rw [heq]
    by_cases hc : p ≠ "" ∧ strict = true ∧
        ¬ (p.data.all Char.isDigit ∧ p.length = 5)
    · rw [if_pos hc]
      constructor
      · intro hf
        exact ⟨by simpa using hf, p, rfl, hc⟩
      · rintro ⟨hf, _⟩
        simp [hf]
    · rw [if_neg hc]
      constructor
      · intro h
        simp at h
      · rintro ⟨hf, p2, hp2, hP⟩
        rw [Option.some.injEq] at hp2
        subst hp2
        exact absurd hP hc

theorem mem_fields_validate (e : Event) (strict : Bool) (f : String) :
    f ∈ (validate_event e strict).map ValidationError.field ↔
      (f = ("id") ∧ e.id = "")
      ∨ (f = ("title") ∧ (e.title = "" ∨ stripStr e.title = ""))
      ∨ (f = ("start_datetime") ∧ e.start_datetime = none)
      ∨ (f = ("source") ∧ e.source = "")
      ∨ (f = ("end_datetime") ∧ ∃ s t, e.start_datetime = some s ∧
          e.end_datetime = some t ∧ t < s)
      ∨ (f = ("url") ∧ ∃ u, e.url = some u ∧ u ≠ "" ∧ strict = true ∧
          ¬ urlHasSchemeAndNetloc u)
      ∨ (f = ("image_url") ∧ ∃ u, e.image_url = some u ∧ u ≠ "" ∧
          strict = true ∧ ¬ urlHasSchemeAndNetloc u)
      ∨ (f = ("postal_code") ∧ ∃ p, e.postal_code = some p ∧ p ≠ "" ∧
          strict = true ∧ ¬ (p.data.all Char.isDigit ∧ p.length = 5)) := by
  unfold validate_event
  simp only [List.map_append, List.mem_append]
  rw [fields_idErrors, fields_titleErrors, fields_startErrors,
    fields_sourceErrors, fields_dateOrderErrors, fields_urlErrors,
    fields_imageUrlErrors, fields_postalErrors]
  simp only [or_assoc]

/-- Counterexample to the blank-source clause of claim C6 as stated: an
event whose source is a single space (blank but not empty) passes
validation with no violation at all, because the code's guard
`not event.source` only fires on the empty string, while the blank-title
guard does strip whitespace. -/
theorem C6_counterexample :
    evBlankSource.source ≠ ""
    ∧ stripStr evBlankSource.source = ""
    ∧ validate_event evBlankSource false = []
    ∧ ¬ (("source") ∈
        (validate_event evBlankSource false).map ValidationError.field) := by
  refine ⟨by decide, by decide, by decide, by decide⟩

/-- Claim C6 as amended: `validate_event` reports the full list of
violations; independently of the strict flag it reports a missing (empty)
id, a blank title (empty before or after stripping), a missing start
instant, an `empty` source (a whitespace-only source is accepted), and an
end instant strictly before the start instant when both are present; an
event is valid (`is_valid_event`) iff the list is empty.  The embedding is
pure, so validation cannot mutate the event. -/
theorem C6_validate_event (e : Event) (strict : Bool) :
    (("id") ∈ (validate_event e strict).map ValidationError.field ↔
      e.id = "")
    ∧ (("title") ∈ (validate_event e strict).map ValidationError.field ↔
      (e.title = "" ∨ stripStr e.title = ""))
    ∧ (("start_datetime") ∈
        (validate_event e strict).map ValidationError.field ↔
      e.start_datetime = none)
    ∧ (("source") ∈ (validate_event e strict).map ValidationError.field ↔
      e.source = "")
    ∧ (("end_datetime") ∈
        (validate_event e strict).map ValidationError.field ↔
      ∃ s t, e.start_datetime = some s ∧ e.end_datetime = some t ∧ t < s)
    ∧ (is_valid_event e strict = true ↔ validate_event e strict = []) := by
  refine ⟨?_, ?_, ?_, ?_, ?_, ?_⟩
  · rw [mem_fields_validate]
    simp
  · rw [mem_fields_validate]
    simp
  · rw [mem_fields_validate]
    simp
  · rw [mem_fields_validate]
    simp
  · rw [mem_fields_validate]
    simp
  · rw [is_valid_event]
    simp [List.length_eq_zero]

/-- Witness for the amended C6 at a concrete event with an empty id, a
whitespace-only title and a backwards end instant: all three violations
are reported in one list, and the event is not valid. -/
theorem C6_validate_event_witness :
    (("id") ∈ (validate_event evBackwards false).map ValidationError.field)
    ∧ (("title") ∈
        (validate_event evBackwards false).map ValidationError.field)
    ∧ (("end_datetime") ∈
        (validate_event evBackwards false).map ValidationError.field)
    ∧ ¬ (("source") ∈
        (validate_event evBackwards false).map ValidationError.field)
    ∧ is_valid_event evBackwards false = false := by
  refine ⟨?_, ?_, ?_, ?_, ?_⟩
  · exact ((C6_validate_event evBackwards false).1).mpr rfl
  · exact ((C6_validate_event evBackwards false).2.1).mpr (Or.inr (by decide))
  · exact ((C6_validate_event evBackwards false).2.2.2.2.1).mpr
      ⟨10, 5, rfl, rfl, by decide⟩
  · intro h
    have := ((C6_validate_event evBackwards false).2.2.2.1).mp h
    exact absurd this (by decide)
  · have h := (C6_validate_event evBackwards false).2.2.2.2.2
    rcases hb : is_valid_event evBackwards false with _ | _
    · rfl
    · exfalso
      have h2 := h.mp hb
      have h3 := ((C6_validate_event evBackwards false).1).mpr rfl
      rw [h2] at h3
      simp at h3

/-! Query (`get_events`) lemmas, claim C8. -/

theorem startOrder_trans (a b c : Row) (h1 : startOrder a b = true)
    (h2 : startOrder b c = true) : startOrder a c = true := by
  rcases ha : a.data.start_datetime with _ | x <;>
    rcases hb : b.data.start_datetime with _ | y <;>
    rcases hc : c.data.start_datetime with _ | z <;>
    simp_all [startOrder]
  omega

theorem startOrder_total (a b : Row) :
    startOrder a b = true ∨ startOrder b a = true := by
  rcases ha : a.data.start_datetime with _ | x <;>
    rcases hb : b.data.start_datetime with _ | y <;>
    simp_all [startOrder]
  omega

instance : IsTrans Row startOrderRel :=
  ⟨fun a b c => startOrder_trans a b c⟩

instance : IsTotal Row startOrderRel :=
  ⟨fun a b => startOrder_total a b⟩

theorem filter_gate {α : Type*} (gate : Bool) (p : α → Bool) (l : List α) :
    (if gate then l.filter p else l) =
      l.filter (fun r => if gate then p r else true) := by
  cases gate
  · simp
  · simp

theorem filter_opt {α β : Type*} (o : Option β) (p : β → α → Bool)
    (l : List α) :
    (match o with | some b => l.filter (p b) | none => l) =
      l.filter (fun r => match o with | some b => p b r | none => true) := by
  rcases o with _ | b
  · simp
  · rfl

theorem applyFilters_eq_filter (city category : Option String)
    (sd ed : Option Int) (store : List Row) :
    applyFilters city category sd ed store =
      store.filter (specMatches city category sd ed) := by
  rcases sd with _ | b1 <;> rcases ed with _ | b2 <;>
    (simp only [applyFilters]
     rw [filter_gate, filter_gate]
     simp only [List.filter_filter]
     apply List.filter_congr
     intro r hr
     simp [specMatches, Bool.and_comm, Bool.and_left_comm, Bool.and_assoc])

/-- Counterexample to claim C8 as stated: a provided limit of 0 is falsy
in Python, so `query.limit` is never applied and the full result comes
back rather than an empty (0-truncated) one. -/
theorem C8_counterexample :
    get_events [rowA] none none none none (some 0) = [rowA]
    ∧ get_events [rowA] none none none none (some 0) ≠ []
    ∧ ([rowA].take ((0 : Int)).toNat) = [] := by
  refine ⟨by decide, by decide, by decide⟩

/-- Claim C8 as amended: with no limit, `get_events` returns exactly the
rows satisfying the conjunction of the provided (truthy) filters — city
and category by exact match, both time bounds inclusive against
`start_instant` — ordered by `start_instant` ascending; a positive limit
truncates that result to its first `n` rows, while a zero or negative
limit is falsy or unbounded and truncates nothing. -/
theorem C8_get_events (store : List Row) (city category : Option String)
    (sd ed : Option Int) :
    (get_events store city category sd ed none).Perm
        (store.filter (specMatches city category sd ed))
    ∧ (get_events store city category sd ed none).Pairwise startOrderRel
    ∧ (∀ n : Int, 0 < n →
        get_events store city category sd ed (some n) =
          (get_events store city category sd ed none).take n.toNat)
    ∧ (∀ n : Int, n ≤ 0 →
        get_events store city category sd ed (some n) =
          get_events store city category sd ed none) := by
  refine ⟨?_, ?_, ?_, ?_⟩
  · show (List.insertionSort startOrderRel
        (applyFilters city category sd ed store)).Perm _
    rw [applyFilters_eq_filter]
    exact List.perm_insertionSort startOrderRel _
  · exact List.sorted_insertionSort startOrderRel _
  · intro n hn
    show (if n ≠ 0 then _ else _) = _
    rw [if_pos (by omega), if_pos hn]
    rfl
  · intro n hn
    by_cases h0 : n = 0
    · show (if n ≠ 0 then _ else _) = _
      rw [if_neg (by omega)]
      rfl
    · show (if n ≠ 0 then _ else _) = _
      rw [if_pos h0, if_neg (by omega)]
      rfl

/-- Witness for the amended C8 at a concrete two-row store: a limit of 1
takes the first row of the sorted result, and a negative limit leaves the
result untouched. -/
theorem C8_get_events_witness :
    get_events [rowB, rowA] none none none none (some 1) =
      (get_events [rowB, rowA] none none none none none).take 1
    ∧ get_events [rowB, rowA] none none none none (some (-1)) =
        get_events [rowB, rowA] none none none none none := by
  constructor
  · exact (C8_get_events [rowB, rowA] none none none none).2.2.1 1
      (by decide)
  · exact (C8_get_events [rowB, rowA] none none none none).2.2.2 (-1)
      (by decide)

/-! Date parsing (`_parse_dates`) lemmas, claim C7. -/

/-- Claim C7: on the fragment `18.1.26 | 30.2.26 | 25.3.26` the scanner
finds all three tokens but yields exactly Jan 18, 2026 and Mar 25, 2026
(Feb 30 is not a valid calendar date and is silently dropped while the
rest is processed); in general every found token whose `2000 + yy` date is
a valid calendar date on or after Jan 1, 2020 appears in the output, and
every output arises that way from some token. -/
theorem C7_parse_dates :
    parse_dates ("18.1.26 | 30.2.26 | 25.3.26") = [(2026, 1, 18), (2026, 3, 25)]
    ∧ findall_dates ("18.1.26 | 30.2.26 | 25.3.26") =
        [(18, 1, 26), (30, 2, 26), (25, 3, 26)]
    ∧ (∀ (text : String) (d m y : Nat), (d, m, y) ∈ findall_dates text →
        validDate (2000 + y) m d = true →
        dateLe (2020, 1, 1) (2000 + y, m, d) = true →
        (2000 + y, m, d) ∈ parse_dates text)
    ∧ (∀ (text : String) (x : Nat × Nat × Nat), x ∈ parse_dates text →
        ∃ d m y, (d, m, y) ∈ findall_dates text ∧ x = (2000 + y, m, d) ∧
          validDate (2000 + y) m d = true ∧
          dateLe (2020, 1, 1) (2000 + y, m, d) = true) := by
  refine ⟨by decide, by decide, ?_, ?_⟩
  · intro text d m y hmem hvalid hle
    unfold parse_dates
    refine List.mem_filterMap.mpr ⟨(d, m, y), hmem, ?_⟩
    show (if validDate (2000 + y) m d then
        (if dateLe (2020, 1, 1) (2000 + y, m, d) then
          some (2000 + y, m, d) else none) else none) =
      some (2000 + y, m, d)
    rw [hvalid, hle]
    simp
  · intro text x hx
    unfold parse_dates at hx
    obtain ⟨a, ha, hfn⟩ := List.mem_filterMap.mp hx
    refine ⟨a.1, a.2.1, a.2.2, ?_, ?_⟩
    · exact ha
    · by_cases hv : validDate (2000 + a.2.2) a.2.1 a.1 = true
      · by_cases hl : dateLe (2020, 1, 1) (2000 + a.2.2, a.2.1, a.1) = true
        · simp only [hv, hl, if_true] at hfn
          rw [Option.some.injEq] at hfn
          exact ⟨hfn.symm, hv, hl⟩
        · rw [if_pos hv, if_neg hl] at hfn
          cases hfn
      · rw [if_neg hv] at hfn
        cases hfn

/-- Witness for C7: the general token rule applied at the concrete token
`25.3.26` of the fragment puts Mar 25, 2026 in the output. -/
theorem C7_parse_dates_witness :
    (2026, 3, 25) ∈ parse_dates ("18.1.26 | 30.2.26 | 25.3.26") :=
  C7_parse_dates.2.2.1 ("18.1.26 | 30.2.26 | 25.3.26") 25 3 26
    (by decide) (by decide) (by decide)

/-! Identity generation, claim C10. -/

/-- Claim C10: the id generator joins its arguments with `-` before
hashing, so the distinct argument tuples `("a-b", "c", s)` and
`("a", "b-c", s)` produce the same joined string and hence the same id
under every hash function — the generator is not injective even ignoring
hash collisions. -/
theorem C10_generate_event_id_not_injective :
    String.intercalate ("-") [("a-b"), ("c"), ("s")] =
      String.intercalate ("-") [("a"), ("b-c"), ("s")]
    ∧ [("a-b"), ("c"), ("s")] ≠ [("a"), ("b-c"), ("s")]
    ∧ ∀ hashHex : String → String,
        generate_event_id hashHex [("a-b"), ("c"), ("s")] =
          generate_event_id hashHex [("a"), ("b-c"), ("s")] := by
  have hjoin : String.intercalate ("-") [("a-b"), ("c"), ("s")] =
      String.intercalate ("-") [("a"), ("b-c"), ("s")] := by decide
  refine ⟨hjoin, by decide, ?_⟩
  intro hashHex
  unfold generate_event_id
  rw [hjoin]

/-- Witness for C10 at a concrete hash function (the identity). -/
theorem C10_generate_event_id_witness :
    generate_event_id (fun s => s) [("a-b"), ("c"), ("s")] =
      generate_event_id (fun s => s) [("a"), ("b-c"), ("s")] :=
  C10_generate_event_id_not_injective.2.2 (fun s => s)

end FestCal
